import Mathlib

/-!
Verification of the docgen2 storage layer: a shallow embedding of the
block/chapter/document model and the storage operations, translated from
`pkg/storage/storage.go`, the storage block/chapter revisions, the
`document` package (positions, search results) and the `search` package.

File paths are modelled as lists of path components (the result of
`filepath.Join`), so that `os.RemoveAll` on a directory removes exactly
the entries lying below that directory, with path-component (not string
prefix) semantics.  Timestamps (`CreatedAt`/`UpdatedAt`) and the YAML
wire format are not modelled: files store their parsed content directly.
-/

namespace Docgen

/-! ## Character and string helpers -/

/-- Lowercase a character list (models `strings.ToLower`; ASCII-faithful). -/
def toLowerL (l : List Char) : List Char := l.map Char.toLower

/-- Lowercase a string (models `strings.ToLower`). -/
def strToLower (s : String) : String := String.mk (toLowerL s.data)

/-- Models `strings.Split(s, "-")` for the single-character separator `'-'`. -/
def splitDash : List Char → List (List Char)
  | [] => [[]]
  | c :: rest =>
    if c = '-' then [] :: splitDash rest
    else
      match splitDash rest with
      | [] => [[c]]
      | p :: ps => (c :: p) :: ps

/-- Models `fmt.Sscanf(s, "%d", &num)` on the decimal-digit prefix of `s`;
`num` stays `0` when no digit is present (the error is ignored in the source). -/
def scanNat (s : List Char) : Nat :=
  (s.takeWhile Char.isDigit).foldl (fun n c => n * 10 + (c.toNat - '0'.toNat)) 0

/-- Models `fmt.Sprintf("%03d", n)`: decimal, zero-padded to width 3. -/
def format3 (n : Nat) : String :=
  let s := toString n
  if s.length < 3 then String.mk (List.replicate (3 - s.length) '0') ++ s else s

/-- Models `strings.Trim(s, "-")` on a character list. -/
def trimDash (l : List Char) : List Char :=
  ((l.dropWhile (fun c => c = '-')).reverse.dropWhile (fun c => c = '-')).reverse

/-- Models `strings.Contains(haystack, needle)` (substring containment). -/
def containsSub : List Char → List Char → Bool
  | [], needle => needle.isEmpty
  | c :: t, needle => needle.isPrefixOf (c :: t) || containsSub t needle

/-- Models `strings.Index(haystack, needle)`: index of first occurrence. -/
def findSubIdx : List Char → List Char → Option Nat
  | [], needle => if needle.isEmpty then some 0 else none
  | c :: t, needle =>
    if needle.isPrefixOf (c :: t) then some 0
    else (findSubIdx t needle).map (· + 1)

/-! ## Data model (`pkg/blocks`, `pkg/document`) -/

/-- `blocks.BlockType` -/
inductive BlockType where
  | heading
  | markdown
  | image
  | table
  | pageBreak
deriving DecidableEq, Repr

/-- A file path relative to the document folder, as `filepath.Join` components. -/
abbrev Path := List String

/-- `blocks.BlockReference` -/
structure BlockReference where
  id : String
  type : BlockType
  file : Path
deriving DecidableEq, Repr

/-- `document.ChapterReference` -/
structure ChapterReference where
  id : String
  title : String
  folder : Path
deriving DecidableEq, Repr

/-- `document.Chapter` -/
structure Chapter where
  id : String
  title : String
  blocks : List BlockReference
deriving DecidableEq, Repr

/-- `document.Document` (timestamps and style configuration omitted). -/
structure Document where
  title : String
  author : String
  hasChapters : Bool
  blocks : List BlockReference
  chapters : List ChapterReference
deriving DecidableEq, Repr

/-- The block variants (`blocks.HeadingBlock` … `blocks.PageBreakBlock`),
as the closed sum the Go type switch dispatches over. -/
inductive Block where
  | heading (id : String) (level : Nat) (text : String)
  | markdown (id : String) (content : String)
  | image (id : String) (path caption altText : String)
  | table (id : String) (headers : List String) (rows : List (List String))
  | pageBreak (id : String)
deriving DecidableEq, Repr

/-- `Block.GetType()` -/
def Block.getType : Block → BlockType
  | .heading _ _ _ => .heading
  | .markdown _ _ => .markdown
  | .image _ _ _ _ => .image
  | .table _ _ _ => .table
  | .pageBreak _ => .pageBreak

/-- `Block.GetID()` -/
def Block.getID : Block → String
  | .heading id _ _ => id
  | .markdown id _ => id
  | .image id _ _ _ => id
  | .table id _ _ => id
  | .pageBreak id => id

/-- The ID-assignment type switch in `AddBlock`/`UpdateBlock` (`b.ID = blockID`). -/
def Block.setID (b : Block) (newID : String) : Block :=
  match b with
  | .heading _ level text => .heading newID level text
  | .markdown _ content => .markdown newID content
  | .image _ path caption altText => .image newID path caption altText
  | .table _ headers rows => .table newID headers rows
  | .pageBreak _ => .pageBreak newID

/-! ## Position resolver (`document.Position`, `document.ParsePosition`) -/

/-- `document.PositionType` (constants `PositionStart`/`PositionEnd`/`PositionAfter`). -/
inductive PositionType where
  | positionStart
  | positionEnd
  | positionAfter
deriving DecidableEq, Repr

/-- `document.Position` -/
structure Position where
  type : PositionType
  blockID : String
deriving DecidableEq, Repr

/-- `document.ParsePosition`: `""`/`"end"` → End, `"start"` → Start,
`"after:<id>"` (length > 6) → After(id), anything else → End. -/
def ParsePosition (pos : String) : Position :=
  if pos = "" ∨ pos = "end" then { type := .positionEnd, blockID := "" }
  else if pos = "start" then { type := .positionStart, blockID := "" }
  else if 6 < pos.data.length ∧ pos.data.take 6 = "after:".data then
    { type := .positionAfter, blockID := String.mk (pos.data.drop 6) }
  else { type := .positionEnd, blockID := "" }

/-! ## Block ID generation (`storage.generateBlockID`, storage.go:241-291) -/

/-- The type-to-prefix switch in `generateBlockID` (hd/md/img/tbl/pb; the Go
`default: "blk"` arm is unreachable for the closed set of block types). -/
def typeAbbrev : BlockType → String
  | .heading => "hd"
  | .markdown => "md"
  | .image => "img"
  | .table => "tbl"
  | .pageBreak => "pb"

/-- The loop body of the max-scan in `generateBlockID`: for a reference of
the given type whose ID splits on `"-"` into exactly two parts, raise the
accumulator to the scanned number when larger. -/
def maxNumStep (t : BlockType) (maxNum : Nat) (ref : BlockReference) : Nat :=
  if ref.type = t then
    match splitDash ref.id.data with
    | [_p, numPart] =>
      let num := scanNat numPart
      if num > maxNum then num else maxNum
    | _ => maxNum
  else maxNum

/-- The max-scan of `generateBlockID`: over references of the given type whose
ID splits on `"-"` into exactly two parts, take the largest scanned number. -/
def maxBlockNum (refs : List BlockReference) (t : BlockType) : Nat :=
  refs.foldl (maxNumStep t) 0

/-- `generateBlockID`, given the reference list of the owning scope (the Go
code fetches it via `GetDocument`/`GetChapter`; the store-level `AddBlock`
below passes the chapter's or the document's list accordingly). -/
def generateBlockID (refs : List BlockReference) (t : BlockType) : String :=
  typeAbbrev t ++ "-" ++ format3 (maxBlockNum refs t + 1)

/-! ## Document ID generation (`storage.generateDocumentID`, storage.go:79-104) -/

/-- The character class `[a-zA-Z0-9\-_]` of the slug regexp. -/
def docIdAllowed (c : Char) : Bool :=
  ('a' ≤ c && c ≤ 'z') || ('A' ≤ c && c ≤ 'Z') || ('0' ≤ c && c ≤ '9') ||
    c = '-' || c = '_'

/-- `reg.ReplaceAllString(s, "-")` for `reg = [^a-zA-Z0-9\-_]+`: every maximal
run of disallowed characters becomes a single `'-'`.  The flag records whether
the previous character was inside such a run. -/
def collapseAux : Bool → List Char → List Char
  | _, [] => []
  | prevBad, c :: rest =>
    if docIdAllowed c then c :: collapseAux false rest
    else if prevBad then collapseAux true rest
    else '-' :: collapseAux true rest

/-- The slug part of `generateDocumentID`: lowercase, collapse disallowed runs
to `'-'`, trim surrounding `'-'`, truncate to 50 (bytes in Go; characters
here, which agrees on ASCII). -/
def slugify (title : String) : String :=
  let cleaned := trimDash (collapseAux false (toLowerL title.data))
  String.mk (if cleaned.length > 50 then cleaned.take 50 else cleaned)

/-- The candidate sequence of the uniqueness loop: the base slug first, then
`base-1`, `base-2`, …. -/
def docIdCandidate (baseID : String) : Nat → String
  | 0 => baseID
  | Nat.succ k => baseID ++ "-" ++ toString (k + 1)

/-- The `for { os.Stat … }` uniqueness loop of `generateDocumentID`.
`ex` models folder existence (`os.Stat`); `fuel` bounds the unbounded Go
loop, which in reality stops at the first free folder. -/
def findUniqueDocID (ex : String → Bool) (baseID : String) : Nat → Nat → String
  | k, 0 => docIdCandidate baseID k
  | k, Nat.succ fuel =>
    if ex (docIdCandidate baseID k) then findUniqueDocID ex baseID (k + 1) fuel
    else docIdCandidate baseID k

/-- `generateDocumentID`: slugify the title, then append `-N` until the
folder does not exist. -/
def generateDocumentID (ex : String → Bool) (title : String) (fuel : Nat) : String :=
  findUniqueDocID ex (slugify title) 0 fuel

/-! ## Position insertion (`storage.insertBlockAtPosition`,
`storage.insertChapterAtPosition`) -/

/-- The `PositionAfter` loop of `insertBlockAtPosition`: insert immediately
after the first reference whose ID equals the anchor, or append at the end. -/
def insertAfterBlock : List BlockReference → BlockReference → String → List BlockReference
  | [], newBlock, _ => [newBlock]
  | b :: rest, newBlock, anchor =>
    if b.id = anchor then b :: newBlock :: rest
    else b :: insertAfterBlock rest newBlock anchor

/-- `storage.insertBlockAtPosition` (storage.go:293-316). -/
def insertBlockAtPosition (blockList : List BlockReference) (newBlock : BlockReference)
    (position : Position) : List BlockReference :=
  match position.type with
  | .positionStart => newBlock :: blockList
  | .positionAfter => insertAfterBlock blockList newBlock position.blockID
  | .positionEnd => blockList ++ [newBlock]

/-- The `PositionAfter` loop of `insertChapterAtPosition`. -/
def insertAfterChapter : List ChapterReference → ChapterReference → String → List ChapterReference
  | [], newChapter, _ => [newChapter]
  | ch :: rest, newChapter, anchor =>
    if ch.id = anchor then ch :: newChapter :: rest
    else ch :: insertAfterChapter rest newChapter anchor

/-- `storage.insertChapterAtPosition`. -/
def insertChapterAtPosition (chapters : List ChapterReference) (newChapter : ChapterReference)
    (position : Position) : List ChapterReference :=
  match position.type with
  | .positionStart => newChapter :: chapters
  | .positionAfter => insertAfterChapter chapters newChapter position.blockID
  | .positionEnd => chapters ++ [newChapter]

/-! ## The file-backed store

One document's on-disk state: its manifest (the `Document`) plus the files
under its folder, keyed by relative path.  File contents are stored parsed
(the YAML wire format is not modelled). -/

/-- Content of one file under the document folder. -/
inductive FSEntry where
  | chapterYaml (c : Chapter)
  | markdownFile (content : String)
  | blockYaml (b : Block)
deriving DecidableEq, Repr

/-- One document's storage state. -/
structure Store where
  doc : Document
  fs : List (Path × FSEntry)
deriving DecidableEq, Repr

/-- `os.ReadFile` -/
def fsGet (fs : List (Path × FSEntry)) (p : Path) : Option FSEntry :=
  match fs.find? (fun e => decide (e.1 = p)) with
  | some e => some e.2
  | none => none

/-- `os.WriteFile` (create or overwrite). -/
def fsSet (fs : List (Path × FSEntry)) (p : Path) (v : FSEntry) : List (Path × FSEntry) :=
  (p, v) :: fs.filter (fun e => !decide (e.1 = p))

/-- A store with one file written (the state after one `os.WriteFile`). -/
def updStore (st : Store) (p : Path) (v : FSEntry) : Store :=
  { st with fs := fsSet st.fs p v }

/-- `os.Remove` on a single file (a missing file is not an error). -/
def fsRemove (fs : List (Path × FSEntry)) (p : Path) : List (Path × FSEntry) :=
  fs.filter (fun e => !decide (e.1 = p))

/-- `os.RemoveAll` on a directory: drops every entry whose path lies below
the directory, with path-component semantics. -/
def fsRemoveAll (fs : List (Path × FSEntry)) (dir : Path) : List (Path × FSEntry) :=
  fs.filter (fun e => !(dir.isPrefixOf e.1))

/-- The error kinds the storage layer reports (Go returns `fmt.Errorf`
strings; only the kind and the offending datum are modelled). -/
inductive Err where
  | blockNotFound (id : String)
  | chapterNotFound (id : String)
  | noChapters
  | typeMismatch (oldType newType : BlockType)
  | ioError
deriving DecidableEq, Repr

/-! ## Chapter repository (`GetChapter`/`SaveChapter`/`AddChapter`/
`DeleteChapter`, storage chapters revision) -/

/-- The `for _, ref := range doc.Chapters` lookup shared by
`GetChapter`/`SaveChapter`: first reference with the given ID. -/
def findChapterRef (chapters : List ChapterReference) (chapterID : String) :
    Option ChapterReference :=
  chapters.find? (fun ref => decide (ref.id = chapterID))

/-- `storage.GetChapter`: requires `HasChapters`, resolves the chapter's
folder via the first matching `ChapterReference`, reads `chapter.yaml`. -/
def GetChapter (st : Store) (chapterID : String) : Except Err Chapter :=
  if !st.doc.hasChapters then .error .noChapters
  else
    match findChapterRef st.doc.chapters chapterID with
    | none => .error (.chapterNotFound chapterID)
    | some ref =>
      match fsGet st.fs (ref.folder ++ ["chapter.yaml"]) with
      | some (.chapterYaml c) => .ok c
      | _ => .error .ioError

/-- `storage.SaveChapter`: resolves the folder via the first matching
`ChapterReference` and overwrites `chapter.yaml`. -/
def SaveChapter (st : Store) (chapterID : String) (chapter : Chapter) : Except Err Store :=
  match findChapterRef st.doc.chapters chapterID with
  | none => .error (.chapterNotFound chapterID)
  | some ref =>
    .ok { st with fs := fsSet st.fs (ref.folder ++ ["chapter.yaml"]) (.chapterYaml chapter) }

/-- `sanitizeForPath` (chapters revision): lowercase, spaces to `'-'`, keep
only `[a-z0-9-]`, truncate to 30, trim surrounding `'-'`. -/
def sanitizeForPath (str : String) : String :=
  let replaced := (toLowerL str.data).map (fun c => if c = ' ' then '-' else c)
  let kept := replaced.filter
    (fun c => ('a' ≤ c && c ≤ 'z') || ('0' ≤ c && c ≤ '9') || c = '-')
  String.mk (trimDash (if kept.length > 30 then kept.take 30 else kept))

/-- `ch.ID == chapterID` collision scan in `AddChapter`. -/
def chapterIdExists (chapters : List ChapterReference) (cid : String) : Bool :=
  chapters.any (fun ch => decide (ch.id = cid))

/-- The `ch-%03d` collision-avoidance loop of `AddChapter`: start from
`len(chapters)+1`, bump while the ID exists.  `fuel = len(chapters)+1`
always suffices. -/
def freshChapterNum (chapters : List ChapterReference) : Nat → Nat → Nat
  | n, 0 => n
  | n, Nat.succ fuel =>
    if chapterIdExists chapters ("ch-" ++ format3 n) then
      freshChapterNum chapters (n + 1) fuel
    else n

/-- `storage.AddChapter` (chapters revision): generate `ch-%03d`, build the
folder `chapters/<id>-<slug>`, insert the `ChapterReference` at the resolved
position, write the chapter file under the chapter's folder. -/
def AddChapter (st : Store) (title : String) (position : Position) :
    Except Err (String × Store) :=
  if !st.doc.hasChapters then .error .noChapters
  else
    let num := freshChapterNum st.doc.chapters (st.doc.chapters.length + 1)
      (st.doc.chapters.length + 1)
    let chapterID := "ch-" ++ format3 num
    let chapterFolder : Path := ["chapters", chapterID ++ "-" ++ sanitizeForPath title]
    let chapterRef : ChapterReference :=
      { id := chapterID, title := title, folder := chapterFolder }
    let doc' := { st.doc with
      chapters := insertChapterAtPosition st.doc.chapters chapterRef position }
    let chapter : Chapter := { id := chapterID, title := title, blocks := [] }
    .ok (chapterID,
      { doc := doc',
        fs := fsSet st.fs (chapterFolder ++ ["chapter.yaml"]) (.chapterYaml chapter) })

/-- `storage.DeleteChapter` (chapters revision): remove the first matching
`ChapterReference` from the manifest, then `os.RemoveAll` on the path
`chapters/<chapterID>` (note: the ID, not the recorded folder). -/
def DeleteChapter (st : Store) (chapterID : String) : Except Err Store :=
  if !st.doc.hasChapters then .error .noChapters
  else
    match st.doc.chapters.findIdx? (fun ref => decide (ref.id = chapterID)) with
    | none => .error (.chapterNotFound chapterID)
    | some i =>
      .ok { doc := { st.doc with chapters := st.doc.chapters.eraseIdx i },
            fs := fsRemoveAll st.fs ["chapters", chapterID] }

/-! ## Block repository (`saveBlockFile`, `AddBlock`, `UpdateBlock`,
`DeleteBlock`, `MoveBlock`, `FindBlockLocation`) -/

/-- The per-type filename switch of `saveBlockFile` (storage.go:336-371). -/
def blockFileName (b : Block) : String :=
  match b with
  | .markdown id _ => id ++ ".md"
  | .image id _ _ _ => id ++ "-image.yaml"
  | .heading id _ _ => id ++ "-heading.yaml"
  | .table id _ _ => id ++ "-table.yaml"
  | .pageBreak id => id ++ "-pagebreak.yaml"

/-- What `saveBlockFile` writes: markdown blocks as raw text, the rest as
structured metadata. -/
def blockFileEntry (b : Block) : FSEntry :=
  match b with
  | .markdown _ content => .markdownFile content
  | _ => .blockYaml b

/-- The path computed by `saveBlockFile` (storage.go:319-329): for a chapter
block `chapters/<chapterID>/blocks/<file>`, otherwise `blocks/<file>`. -/
def saveBlockRelPath (chapterID : String) (b : Block) : Path :=
  if chapterID ≠ "" then ["chapters", chapterID, "blocks", blockFileName b]
  else ["blocks", blockFileName b]

/-- `storage.saveBlockFile`: write the block's content file and return its
relative path. -/
def saveBlockFile (st : Store) (chapterID : String) (b : Block) : Path × Store :=
  let rel := saveBlockRelPath chapterID b
  (rel, { st with fs := fsSet st.fs rel (blockFileEntry b) })

/-- `storage.AddBlock` (storage.go:183-239): generate the ID from the owning
scope's reference list, save the content file, insert the new reference at
the resolved position, save the owning chapter or the document. -/
def AddBlock (st : Store) (chapterID : String) (block : Block) (position : Position) :
    Except Err Store :=
  let refsForGen : List BlockReference :=
    if st.doc.hasChapters && chapterID ≠ "" then
      match GetChapter st chapterID with
      | .ok chapter => chapter.blocks
      | .error _ => []
    else st.doc.blocks
  let blockID := generateBlockID refsForGen block.getType
  let block' := block.setID blockID
  let saved := saveBlockFile st chapterID block'
  let blockRef : BlockReference := { id := blockID, type := block'.getType, file := saved.1 }
  let st1 := saved.2
  if st1.doc.hasChapters && chapterID ≠ "" then
    match GetChapter st1 chapterID with
    | .error e => .error e
    | .ok chapter =>
      SaveChapter st1 chapterID
        { chapter with blocks := insertBlockAtPosition chapter.blocks blockRef position }
  else
    .ok { st1 with doc :=
      { st1.doc with blocks := insertBlockAtPosition st1.doc.blocks blockRef position } }

/-- First reference with the given ID (the `for _, ref := range` scans). -/
def findFirstBlock (blockID : String) : List BlockReference → Option BlockReference
  | [] => none
  | r :: rest => if r.id = blockID then some r else findFirstBlock blockID rest

/-- Index of the first reference with the given ID. -/
def findBlockIdx (blockID : String) : List BlockReference → Option Nat
  | [] => none
  | r :: rest =>
    if r.id = blockID then some 0 else (findBlockIdx blockID rest).map (· + 1)

/-- The find-then-slice-out pattern (`append(xs[:i], xs[i+1:]...)` at the
first matching index): the removed reference and the remaining list. -/
def removeFirstBlock (blockID : String) :
    List BlockReference → Option (BlockReference × List BlockReference)
  | [] => none
  | r :: rest =>
    if r.id = blockID then some (r, rest)
    else
      match removeFirstBlock blockID rest with
      | none => none
      | some pr => some (pr.1, r :: pr.2)

/-- The chapter scan of `UpdateBlock`: walk the chapters in order, skip the
ones whose file fails to load, return the owning chapter's ID and the stored
reference of the first match. -/
def locateInChapters (st : Store) (blockID : String) :
    List ChapterReference → Option (String × BlockReference)
  | [] => none
  | chRef :: rest =>
    match GetChapter st chRef.id with
    | .error _ => locateInChapters st blockID rest
    | .ok chapter =>
      match findFirstBlock blockID chapter.blocks with
      | some ref => some (chRef.id, ref)
      | none => locateInChapters st blockID rest

/-- The block-location step of `UpdateBlock` (storage blocks revision,
`UpdateBlock` lines 650-681): chapters only when `HasChapters`, otherwise the
flat list. -/
def locateBlockRef (st : Store) (blockID : String) : Option (String × BlockReference) :=
  if st.doc.hasChapters then locateInChapters st blockID st.doc.chapters
  else
    match findFirstBlock blockID st.doc.blocks with
    | some ref => some ("", ref)
    | none => none

/-- `storage.UpdateBlock`: locate the stored reference, fail with
TypeMismatch when the replacement's type differs, otherwise overwrite the
content file with the replacement carrying the existing ID.  (`SaveDocument`
only refreshes the timestamp, which is not modelled.) -/
def UpdateBlock (st : Store) (blockID : String) (newBlock : Block) : Except Err Store :=
  match locateBlockRef st blockID with
  | none => .error (.blockNotFound blockID)
  | some (chapterID, blockRef) =>
    if blockRef.type ≠ newBlock.getType then
      .error (.typeMismatch blockRef.type newBlock.getType)
    else .ok (saveBlockFile st chapterID (newBlock.setID blockID)).2

/-- The chapter scan of `DeleteBlock`: on the first chapter containing the
ID, remove the reference, save the chapter, then delete the content file. -/
def deleteBlockInChapters (st : Store) (blockID : String) :
    List ChapterReference → Except Err Store
  | [] => .error (.blockNotFound blockID)
  | chRef :: rest =>
    match GetChapter st chRef.id with
    | .error _ => deleteBlockInChapters st blockID rest
    | .ok chapter =>
      match removeFirstBlock blockID chapter.blocks with
      | none => deleteBlockInChapters st blockID rest
      | some pr =>
        match SaveChapter st chRef.id { chapter with blocks := pr.2 } with
        | .error e => .error e
        | .ok st1 => .ok { st1 with fs := fsRemove st1.fs pr.1.file }

/-- `storage.DeleteBlock` (storage blocks revision, lines 713-779). -/
def DeleteBlock (st : Store) (blockID : String) : Except Err Store :=
  if st.doc.hasChapters then deleteBlockInChapters st blockID st.doc.chapters
  else
    match removeFirstBlock blockID st.doc.blocks with
    | none => .error (.blockNotFound blockID)
    | some pr =>
      .ok { doc := { st.doc with blocks := pr.2 },
            fs := fsRemove st.fs pr.1.file }

/-- The chapter scan of `MoveBlock`: remove the first match and save its
chapter, then (for a non-empty source chapter ID) re-read the chapter and
reinsert the reference at the new position. -/
def moveBlockInChapters (st : Store) (blockID : String) (newPosition : Position) :
    List ChapterReference → Except Err Store
  | [] => .error (.blockNotFound blockID)
  | chRef :: rest =>
    match GetChapter st chRef.id with
    | .error _ => moveBlockInChapters st blockID newPosition rest
    | .ok chapter =>
      match removeFirstBlock blockID chapter.blocks with
      | none => moveBlockInChapters st blockID newPosition rest
      | some pr =>
        match SaveChapter st chRef.id { chapter with blocks := pr.2 } with
        | .error e => .error e
        | .ok st1 =>
          if chRef.id = "" then .ok st1
          else
            match GetChapter st1 chRef.id with
            | .error e => .error e
            | .ok chapter2 =>
              SaveChapter st1 chRef.id
                { chapter2 with
                  blocks := insertBlockAtPosition chapter2.blocks pr.1 newPosition }

/-- `storage.MoveBlock` (storage blocks revision, lines 782-859): remove the
reference from its current scope and reinsert it into the same scope. -/
def MoveBlock (st : Store) (blockID : String) (newPosition : Position) : Except Err Store :=
  if st.doc.hasChapters then moveBlockInChapters st blockID newPosition st.doc.chapters
  else
    match removeFirstBlock blockID st.doc.blocks with
    | none => .error (.blockNotFound blockID)
    | some pr =>
      .ok { st with doc :=
        { st.doc with blocks := insertBlockAtPosition pr.2 pr.1 newPosition } }

/-- The chapter scan of `FindBlockLocation`. -/
def findLocInChapters (st : Store) (blockID : String) :
    List ChapterReference → Option (String × Nat)
  | [] => none
  | chRef :: rest =>
    match GetChapter st chRef.id with
    | .error _ => findLocInChapters st blockID rest
    | .ok chapter =>
      match findBlockIdx blockID chapter.blocks with
      | some i => some (chRef.id, i)
      | none => findLocInChapters st blockID rest

/-- `storage.FindBlockLocation` (storage blocks revision, lines 862-892):
scan the chapters when `HasChapters`, otherwise the flat list. -/
def FindBlockLocation (st : Store) (blockID : String) : Except Err (String × Nat) :=
  if st.doc.hasChapters then
    match findLocInChapters st blockID st.doc.chapters with
    | some loc => .ok loc
    | none => .error (.blockNotFound blockID)
  else
    match findBlockIdx blockID st.doc.blocks with
    | some i => .ok ("", i)
    | none => .error (.blockNotFound blockID)

/-! ## Search engine (`pkg/search`: `SearchInBlocks`, `GetBlockContent`,
`ExtractSnippet`) -/

/-- `document.SearchResult` -/
structure SearchResult where
  blockID : String
  blockType : BlockType
  chapterID : String
  snippet : String
  position : Nat
deriving DecidableEq, Repr

/-- `Searcher.GetBlockContent`: the searchable text per block type. -/
def getBlockContent : Block → String
  | .heading _ _ text => text
  | .markdown _ content => content
  | .image _ _ caption altText => caption ++ " " ++ altText
  | .table _ headers rows =>
    rows.foldl (fun content row => content ++ " " ++ String.intercalate " " row)
      (String.intercalate " " headers)
  | .pageBreak _ => ""

/-- `search.truncateString` -/
def truncateStr (s : String) (maxLen : Nat) : String :=
  if s.data.length ≤ maxLen then s else String.mk (s.data.take maxLen) ++ "..."

/-- `Searcher.ExtractSnippet`: the 50/len(query)/50 window around the first
case-insensitive occurrence, clipped to the content and marked with `"..."`
on each clipped side. -/
def extractSnippet (content query : String) : String :=
  match findSubIdx (toLowerL content.data) (toLowerL query.data) with
  | none => truncateStr content 150
  | some index =>
    let start := if index < 50 then 0 else index - 50
    let stop := min (index + query.data.length + 50) content.data.length
    let snippet := String.mk ((content.data.drop start).take (stop - start))
    let s1 := if start > 0 then "..." ++ snippet else snippet
    if stop < content.data.length then s1 ++ "..." else s1

/-- The `for i, ref := range blockRefs` loop of `SearchInBlocks`, with the
running index made explicit.  `load` models `storage.LoadBlock` (a failing
load skips the block); `query` arrives already lowercased, as in
`SearchDocument`. -/
def searchInBlocksAux (load : BlockReference → Option Block) (query chapterID : String) :
    List BlockReference → Nat → List SearchResult
  | [], _ => []
  | ref :: rest, i =>
    match load ref with
    | none => searchInBlocksAux load query chapterID rest (i + 1)
    | some block =>
      if containsSub (toLowerL (getBlockContent block).data) query.data then
        { blockID := ref.id, blockType := ref.type, chapterID := chapterID,
          snippet := extractSnippet (getBlockContent block) query, position := i }
          :: searchInBlocksAux load query chapterID rest (i + 1)
      else searchInBlocksAux load query chapterID rest (i + 1)

/-- `Searcher.SearchInBlocks` (search revision, lines 161-187). -/
def searchInBlocks (load : BlockReference → Option Block) (refs : List BlockReference)
    (query chapterID : String) : List SearchResult :=
  searchInBlocksAux load query chapterID refs 0

/-! ## Concrete scenario stores -/

deriving instance DecidableEq for Except

/-- Shorthand for `Position{Type: PositionEnd}`. -/
def posEnd : Position := { type := .positionEnd, blockID := "" }

/-- Shorthand for `Position{Type: PositionStart}`. -/
def posStart : Position := { type := .positionStart, blockID := "" }

/-- A fresh chaptered document, as created by `CreateDocument(_, true, _)`. -/
def chapteredStore (title author : String) : Store :=
  { doc := { title := title, author := author, hasChapters := true,
             blocks := [], chapters := [] },
    fs := [] }

/-- A fresh flat document, as created by `CreateDocument(_, false, _)`. -/
def flatStore (title author : String) : Store :=
  { doc := { title := title, author := author, hasChapters := false,
             blocks := [], chapters := [] },
    fs := [] }

/-- The numeric suffix `generateBlockID` scans: defined for IDs that split
on `"-"` into exactly two parts, as the scanned number of the second part. -/
def idNum (id : String) : Option Nat :=
  match splitDash id.data with
  | [_p, numPart] => some (scanNat numPart)
  | _ => none

/-- C2 counterexample scenario: flat document, add one heading, delete it. -/
def c2Store1 : Store :=
  (AddBlock (flatStore "Doc" "A") "" (Block.heading "" 1 "A") posEnd).toOption.getD
    (flatStore "Doc" "A")

def c2Store2 : Store := (DeleteBlock c2Store1 "hd-001").toOption.getD c2Store1

def c2Store3 : Store :=
  (AddBlock c2Store2 "" (Block.heading "" 1 "B") posEnd).toOption.getD c2Store2

/-- C2 amended scenario: add three headings, delete the middle one. -/
def c2ScenA : Store :=
  (AddBlock (flatStore "Doc" "A") "" (Block.heading "" 1 "A") posEnd).toOption.getD
    (flatStore "Doc" "A")

def c2ScenB : Store :=
  (AddBlock c2ScenA "" (Block.heading "" 1 "B") posEnd).toOption.getD c2ScenA

def c2ScenC : Store :=
  (AddBlock c2ScenB "" (Block.heading "" 1 "C") posEnd).toOption.getD c2ScenB

def c2ScenDel : Store := (DeleteBlock c2ScenC "hd-002").toOption.getD c2ScenC

def c2ScenD : Store :=
  (AddBlock c2ScenDel "" (Block.heading "" 1 "D") posEnd).toOption.getD c2ScenDel

/-- C10 hypothesis, decidably: no chapter of the document (as loaded by
`GetChapter`, exactly as the scans load them) contains a reference with the
given block ID. -/
def chaptersClearOf (st : Store) (blockID : String) : Bool :=
  st.doc.chapters.all (fun chRef =>
    match GetChapter st chRef.id with
    | .ok c => c.blocks.all (fun r => decide (r.id ≠ blockID))
    | .error _ => true)

/-- C10 mixed-state witness store: `has_chapters` is true, one top-level
block `hd-001`, one chapter `ch-001` whose block list is empty. -/
def c10Store : Store :=
  { doc := { title := "Mixed", author := "A", hasChapters := true,
             blocks := [{ id := "hd-001", type := .heading,
                          file := ["blocks", "hd-001-heading.yaml"] }],
             chapters := [{ id := "ch-001", title := "One",
                            folder := ["chapters", "ch-001-one"] }] },
    fs := [(["blocks", "hd-001-heading.yaml"],
             .blockYaml (Block.heading "hd-001" 1 "Intro")),
           (["chapters", "ch-001-one", "chapter.yaml"],
             .chapterYaml { id := "ch-001", title := "One", blocks := [] })] }

/-- C6 witness store: a flat document holding one heading block `hd-001`. -/
def c6Store : Store :=
  (AddBlock (flatStore "Doc" "B") "" (Block.heading "" 1 "A") posEnd).toOption.getD
    (flatStore "Doc" "B")

/-- C8 witness scope: a single markdown block reference. -/
def c8refs : List BlockReference :=
  [{ id := "md-001", type := .markdown, file := ["blocks", "md-001.md"] }]

/-- C8 witness loader: resolves `md-001` to a markdown block. -/
def c8load : BlockReference → Option Block := fun ref =>
  if ref.id = "md-001" then some (Block.markdown "md-001" "Butterflies are beautiful")
  else none

/-- The first result of the C8 witness search. -/
def c8result : SearchResult :=
  (searchInBlocks c8load c8refs "butterflies" "").headD
    { blockID := "", blockType := .markdown, chapterID := "", snippet := "", position := 99 }

/-! ## C1: chapter deletion -/

/-- C1 scenario: chaptered document with one chapter "Intro" holding one
markdown block. -/
def c1Store1 : Store :=
  ((AddChapter (chapteredStore "Chapter Test" "A") "Intro" posEnd).toOption.getD
    ("", chapteredStore "Chapter Test" "A")).2

def c1Store2 : Store :=
  (AddBlock c1Store1 "ch-001" (Block.markdown "" "Hello world") posEnd).toOption.getD c1Store1

def c1Store3 : Store := (DeleteChapter c1Store2 "ch-001").toOption.getD c1Store2

/-- C1: evaluating `DeleteChapter` at the failing input.  The chapter
"Intro" gets ID `ch-001` and recorded folder `chapters/ch-001-intro`; its
block file lands under `chapters/ch-001/blocks/`.  `DeleteChapter` succeeds
and removes the `ChapterReference` from the manifest, but it removes the
path `chapters/ch-001` — not the folder recorded in the `ChapterReference` —
so the chapter's folder and its `chapter.yaml` survive on disk (only the
block file, which lives under the wrong directory `chapters/ch-001`, is
deleted).  The absent-ID branch does return NotFound. -/
theorem c1_deleteChapter_eval :
    AddChapter (chapteredStore "Chapter Test" "A") "Intro" posEnd = .ok ("ch-001", c1Store1)
    ∧ c1Store1.doc.chapters =
        [{ id := "ch-001", title := "Intro", folder := ["chapters", "ch-001-intro"] }]
    ∧ AddBlock c1Store1 "ch-001" (Block.markdown "" "Hello world") posEnd = .ok c1Store2
    ∧ fsGet c1Store2.fs ["chapters", "ch-001-intro", "chapter.yaml"] ≠ none
    ∧ DeleteChapter c1Store2 "ch-001" = .ok c1Store3
    ∧ c1Store3.doc.chapters = []
    ∧ fsGet c1Store3.fs ["chapters", "ch-001-intro", "chapter.yaml"] ≠ none
    ∧ DeleteChapter c1Store2 "ch-999" = .error (.chapterNotFound "ch-999") := by
  decide

/-! ## C4: where chapter block files are written -/

/-- C4 scenario: same chaptered document; the block reference recorded for
the chapter block. -/
def c4Store1 : Store :=
  ((AddChapter (chapteredStore "Doc" "A") "Intro" posEnd).toOption.getD
    ("", chapteredStore "Doc" "A")).2

def c4Store2 : Store :=
  (AddBlock c4Store1 "ch-001" (Block.markdown "" "Hello world") posEnd).toOption.getD c4Store1

/-- C4: evaluating `AddBlock`/`saveBlockFile` at the failing input.  The
chapter's recorded folder is `chapters/ch-001-intro`, but the block content
file is written to `chapters/ch-001/blocks/md-001.md`, which does not lie
inside the recorded folder (while `AddChapter` created a
`chapters/ch-001-intro/blocks/` directory that stays unused). -/
theorem c4_saveBlockFile_eval :
    c4Store1.doc.chapters =
      [{ id := "ch-001", title := "Intro", folder := ["chapters", "ch-001-intro"] }]
    ∧ AddBlock c4Store1 "ch-001" (Block.markdown "" "Hello world") posEnd = .ok c4Store2
    ∧ GetChapter c4Store2 "ch-001" =
        .ok { id := "ch-001", title := "Intro",
              blocks := [{ id := "md-001", type := .markdown,
                           file := ["chapters", "ch-001", "blocks", "md-001.md"] }] }
    ∧ fsGet c4Store2.fs ["chapters", "ch-001", "blocks", "md-001.md"] =
        some (.markdownFile "Hello world")
    ∧ (["chapters", "ch-001-intro"] : Path).isPrefixOf
        ["chapters", "ch-001", "blocks", "md-001.md"] = false := by
  decide

/-! ## C2: block ID generation -/

/-- C2 counterexample: in a flat document, add one heading (it receives
`hd-001`), delete it, and add another heading: the generator returns
`hd-001` again, although that number was used for that type in that scope
and later deleted. -/
theorem c2_counterexample :
    AddBlock (flatStore "Doc" "A") "" (Block.heading "" 1 "A") posEnd = .ok c2Store1
    ∧ c2Store1.doc.blocks.map BlockReference.id = ["hd-001"]
    ∧ DeleteBlock c2Store1 "hd-001" = .ok c2Store2
    ∧ c2Store2.doc.blocks = []
    ∧ AddBlock c2Store2 "" (Block.heading "" 1 "B") posEnd = .ok c2Store3
    ∧ c2Store3.doc.blocks.map BlockReference.id = ["hd-001"] := by
  decide

theorem le_maxNumStep (t : BlockType) (m : Nat) (r : BlockReference) :
    m ≤ maxNumStep t m r := by
  unfold maxNumStep
  split
  · split
    · dsimp only
      split
      · omega
      · exact Nat.le_refl m
    · exact Nat.le_refl m
  · exact Nat.le_refl m

theorem maxNumStep_ge (t : BlockType) (m : Nat) (r : BlockReference) (n : Nat)
    (ht : r.type = t) (hn : idNum r.id = some n) : n ≤ maxNumStep t m r := by
  unfold idNum at hn
  split at hn
  · rename_i p numPart hsplit
    injection hn with hn
    unfold maxNumStep
    rw [if_pos ht, hsplit]
    dsimp only
    split
    · omega
    · omega
  · exact absurd hn (by simp)

theorem foldl_maxNumStep_mono (t : BlockType) :
    ∀ (refs : List BlockReference) (m : Nat), m ≤ refs.foldl (maxNumStep t) m := by
  intro refs
  induction refs with
  | nil => intro m; exact Nat.le_refl m
  | cons a rest ih =>
    intro m
    exact Nat.le_trans (le_maxNumStep t m a) (ih (maxNumStep t m a))

theorem mem_le_foldl_maxNumStep (t : BlockType) :
    ∀ (refs : List BlockReference) (m : Nat) (r : BlockReference) (n : Nat),
      r ∈ refs → r.type = t → idNum r.id = some n →
      n ≤ refs.foldl (maxNumStep t) m := by
  intro refs
  induction refs with
  | nil => intro m r n hmem; exact absurd hmem (List.not_mem_nil r)
  | cons a rest ih =>
    intro m r n hmem ht hn
    rw [List.foldl_cons]
    rcases List.mem_cons.mp hmem with h | h
    · subst h
      exact Nat.le_trans (maxNumStep_ge t m r n ht hn)
        (foldl_maxNumStep_mono t rest (maxNumStep t m r))
    · exact ih (maxNumStep t m a) r n h ht hn

/-- C2 amended: the next generated block ID is `prefix-%03d` of
`max(numeric suffixes of same-type references in the scope) + 1` (so `001`
when none exist), and that number is strictly greater than the suffix of
every same-type reference currently in the scope — hence a deleted number
below the scope's current maximum is never returned again, and in the spec's
scenario (add hd-001, hd-002, hd-003, delete hd-002) the next heading ID is
hd-004.  (A deleted number above the remaining maximum can be returned
again, as `c2_counterexample` shows.) -/
theorem c2_generateBlockID_amended :
    (∀ (refs : List BlockReference) (t : BlockType),
      generateBlockID refs t = typeAbbrev t ++ "-" ++ format3 (maxBlockNum refs t + 1))
    ∧ (∀ (refs : List BlockReference) (t : BlockType) (r : BlockReference) (n : Nat),
        r ∈ refs → r.type = t → idNum r.id = some n → n < maxBlockNum refs t + 1)
    ∧ (c2ScenC.doc.blocks.map BlockReference.id = ["hd-001", "hd-002", "hd-003"]
       ∧ DeleteBlock c2ScenC "hd-002" = .ok c2ScenDel
       ∧ c2ScenDel.doc.blocks.map BlockReference.id = ["hd-001", "hd-003"]
       ∧ generateBlockID c2ScenDel.doc.blocks BlockType.heading = "hd-004"
       ∧ AddBlock c2ScenDel "" (Block.heading "" 1 "D") posEnd = .ok c2ScenD
       ∧ c2ScenD.doc.blocks.map BlockReference.id = ["hd-001", "hd-003", "hd-004"]) := by
  refine ⟨fun refs t => rfl, fun refs t r n hmem ht hn => ?_, by decide⟩
  exact Nat.lt_succ_of_le (mem_le_foldl_maxNumStep t refs 0 r n hmem ht hn)

/-- Witness for `c2_generateBlockID_amended`: instantiating the strict-bound
conjunct at the concrete scope `[hd-001, hd-003]` and the reference
`hd-003`. -/
theorem c2_generateBlockID_amended_witness :
    3 < maxBlockNum c2ScenDel.doc.blocks BlockType.heading + 1 :=
  c2_generateBlockID_amended.2.1 c2ScenDel.doc.blocks BlockType.heading
    { id := "hd-003", type := .heading, file := ["blocks", "hd-003-heading.yaml"] } 3
    (by decide) (by decide) (by decide)

/-! ## C3: document ID generation -/

/-- C3 counterexample: a title whose slug is empty.  `generateDocumentID`
returns the empty slug (with no folder collisions), not the default
`"document"` the claim asserts. -/
theorem c3_counterexample :
    slugify "!!!" = ""
    ∧ generateDocumentID (fun _ => false) "!!!" 10 = ""
    ∧ generateDocumentID (fun _ => false) "!!!" 10 ≠ "document" := by
  decide

theorem collapseAux_allowed :
    ∀ (l : List Char) (flag : Bool), ∀ c ∈ collapseAux flag l, docIdAllowed c = true := by
  intro l
  induction l with
  | nil => intro flag c hc; exact absurd hc (List.not_mem_nil c)
  | cons a rest ih =>
    intro flag c hc
    unfold collapseAux at hc
    by_cases ha : docIdAllowed a = true
    · rw [if_pos ha] at hc
      rcases List.mem_cons.mp hc with h | h
      · subst h; exact ha
      · exact ih false c h
    · rw [if_neg ha] at hc
      by_cases hflag : flag = true
      · rw [if_pos hflag] at hc
        exact ih true c hc
      · rw [if_neg hflag] at hc
        rcases List.mem_cons.mp hc with h | h
        · subst h; decide
        · exact ih true c h

theorem mem_trimDash {c : Char} {l : List Char} (h : c ∈ trimDash l) : c ∈ l := by
  unfold trimDash at h
  rw [List.mem_reverse] at h
  have h1 := (List.dropWhile_sublist (fun x => decide (x = '-'))).mem h
  rw [List.mem_reverse] at h1
  exact (List.dropWhile_sublist (fun x => decide (x = '-'))).mem h1

theorem slugify_chars (title : String) : ∀ c ∈ (slugify title).data, docIdAllowed c = true := by
  intro c hc
  unfold slugify at hc
  dsimp only at hc
  split at hc
  · exact collapseAux_allowed (toLowerL title.data) false c
      (mem_trimDash ((List.take_sublist 50 _).mem hc))
  · exact collapseAux_allowed (toLowerL title.data) false c (mem_trimDash hc)

theorem slugify_len (title : String) : (slugify title).data.length ≤ 50 := by
  unfold slugify
  dsimp only
  split
  · rw [List.length_take]; omega
  · omega

theorem findUniqueDocID_free (ex : String → Bool) (baseID : String) :
    ∀ (fuel k : Nat),
      ex (findUniqueDocID ex baseID k fuel) = false
      ∨ findUniqueDocID ex baseID k fuel = docIdCandidate baseID (k + fuel) := by
  intro fuel
  induction fuel with
  | zero => intro k; right; rfl
  | succ f ih =>
    intro k
    unfold findUniqueDocID
    by_cases h : ex (docIdCandidate baseID k) = true
    · rw [if_pos h]
      rcases ih (k + 1) with h1 | h1
      · left; exact h1
      · right; rw [h1]; congr 1; omega
    · rw [if_neg h]
      left
      exact Bool.not_eq_true _ ▸ (by revert h; cases ex (docIdCandidate baseID k) <;> simp)

/-- C3 amended: document creation derives the ID by lowercasing the title,
replacing every run of characters outside `[a-z0-9_-]` with `-`, trimming
surrounding `-` and truncating to 50 characters — an empty result stays
empty (there is no `"document"` default in the ID generator; that default
exists only in the exporter's filename sanitizer).  When the folder exists,
`-N` suffixes (N = 1, 2, …) are tried until a free folder is found, so
colliding slugs receive distinct IDs (`test-doc`, then `test-doc-1`). -/
theorem c3_generateDocumentID_amended :
    (∀ (title : String), ∀ c ∈ (slugify title).data, docIdAllowed c = true)
    ∧ (∀ (title : String), (slugify title).data.length ≤ 50)
    ∧ (∀ (ex : String → Bool) (title : String) (fuel : Nat),
        ex (generateDocumentID ex title fuel) = false
        ∨ generateDocumentID ex title fuel = docIdCandidate (slugify title) fuel)
    ∧ (slugify "Test Doc" = "test-doc"
       ∧ generateDocumentID (fun _ => false) "Test Doc" 10 = "test-doc"
       ∧ generateDocumentID (fun s => decide (s = "test-doc")) "Test Doc" 10 = "test-doc-1"
       ∧ ("test-doc" : String) ≠ "test-doc-1"
       ∧ slugify "!!!" = ""
       ∧ generateDocumentID (fun _ => false) "!!!" 10 = "") := by
  refine ⟨slugify_chars, slugify_len, fun ex title fuel => ?_, by decide⟩
  have h := findUniqueDocID_free ex (slugify title) fuel 0
  rcases h with h | h
  · left; exact h
  · right
    unfold generateDocumentID
    rw [h]
    congr 1
    omega

/-- Witness for `c3_generateDocumentID_amended`: the quantified conjuncts at
the concrete title "Test Doc". -/
theorem c3_generateDocumentID_amended_witness :
    docIdAllowed 't' = true
    ∧ (slugify "Test Doc").data.length ≤ 50
    ∧ ((fun _ => false) (generateDocumentID (fun _ => false) "Test Doc" 10) = false
       ∨ generateDocumentID (fun _ => false) "Test Doc" 10 =
           docIdCandidate (slugify "Test Doc") 10) :=
  ⟨c3_generateDocumentID_amended.1 "Test Doc" 't' (by decide),
   c3_generateDocumentID_amended.2.1 "Test Doc",
   c3_generateDocumentID_amended.2.2.1 (fun _ => false) "Test Doc" 10⟩

/-! ## C5: position resolution on insertion -/

theorem insertAfterBlock_found (b : BlockReference) (x : String) :
    ∀ (l1 l2 : List BlockReference) (anchor : BlockReference),
      anchor.id = x → (∀ r ∈ l1, r.id ≠ x) →
      insertAfterBlock (l1 ++ anchor :: l2) b x = l1 ++ anchor :: b :: l2 := by
  intro l1
  induction l1 with
  | nil =>
    intro l2 anchor ha _
    rw [List.nil_append, List.nil_append]
    simp only [insertAfterBlock]
    rw [if_pos ha]
  | cons r rest ih =>
    intro l2 anchor ha hnone
    have hr : ¬(r.id = x) := hnone r (List.mem_cons_self r rest)
    rw [List.cons_append]
    simp only [insertAfterBlock]
    rw [if_neg hr, ih l2 anchor ha (fun r' hr' => hnone r' (List.mem_cons_of_mem r hr'))]
    rfl

theorem insertAfterBlock_absent (b : BlockReference) (x : String) :
    ∀ (l : List BlockReference), (∀ r ∈ l, r.id ≠ x) →
      insertAfterBlock l b x = l ++ [b] := by
  intro l
  induction l with
  | nil => intro _; rfl
  | cons r rest ih =>
    intro hnone
    unfold insertAfterBlock
    rw [if_neg (hnone r (List.mem_cons_self r rest)),
      ih (fun r' hr' => hnone r' (List.mem_cons_of_mem r hr'))]
    rfl

/-- C5: `Start` places the new reference at index 0; `End` places it at the
last index; `After(X)` places it immediately after the first reference whose
ID equals X; when no reference with ID X exists, it is appended at the
end. -/
theorem c5_insertBlockAtPosition :
    (∀ (l : List BlockReference) (b : BlockReference) (aux : String),
      insertBlockAtPosition l b { type := .positionStart, blockID := aux } = b :: l
      ∧ (insertBlockAtPosition l b { type := .positionStart, blockID := aux })[0]? = some b)
    ∧ (∀ (l : List BlockReference) (b : BlockReference) (aux : String),
      insertBlockAtPosition l b { type := .positionEnd, blockID := aux } = l ++ [b]
      ∧ (insertBlockAtPosition l b { type := .positionEnd, blockID := aux })[l.length]? = some b
      ∧ (insertBlockAtPosition l b { type := .positionEnd, blockID := aux }).length
          = l.length + 1)
    ∧ (∀ (l1 l2 : List BlockReference) (anchor b : BlockReference) (x : String),
      anchor.id = x → (∀ r ∈ l1, r.id ≠ x) →
      insertBlockAtPosition (l1 ++ anchor :: l2) b { type := .positionAfter, blockID := x }
          = l1 ++ anchor :: b :: l2
      ∧ (insertBlockAtPosition (l1 ++ anchor :: l2) b
          { type := .positionAfter, blockID := x })[l1.length + 1]? = some b)
    ∧ (∀ (l : List BlockReference) (b : BlockReference) (x : String),
      (∀ r ∈ l, r.id ≠ x) →
      insertBlockAtPosition l b { type := .positionAfter, blockID := x } = l ++ [b]) := by
  refine ⟨fun l b aux => ⟨rfl, by simp [insertBlockAtPosition]⟩,
    fun l b aux => ⟨rfl, ?_, by simp [insertBlockAtPosition]⟩,
    fun l1 l2 anchor b x ha hnone => ?_,
    fun l b x hnone => insertAfterBlock_absent b x l hnone⟩
  · show (l ++ [b])[l.length]? = some b
    rw [List.getElem?_append_right (Nat.le_refl l.length), Nat.sub_self]
    simp
  · have heq : insertBlockAtPosition (l1 ++ anchor :: l2) b
        { type := .positionAfter, blockID := x } = l1 ++ anchor :: b :: l2 :=
      insertAfterBlock_found b x l1 l2 anchor ha hnone
    refine ⟨heq, ?_⟩
    rw [heq, List.getElem?_append_right (Nat.le_succ_of_le (Nat.le_refl l1.length))]
    have h1 : l1.length + 1 - l1.length = 1 := by omega
    rw [h1]
    simp

/-- Witness for `c5_insertBlockAtPosition`: the After-branch conjuncts at a
concrete three-element list. -/
theorem c5_insertBlockAtPosition_witness :
    (insertBlockAtPosition
        [{ id := "hd-001", type := .heading, file := ["blocks", "a"] },
         { id := "hd-002", type := .heading, file := ["blocks", "b"] }]
        { id := "hd-004", type := .heading, file := ["blocks", "d"] }
        { type := .positionAfter, blockID := "hd-002" }
      = [{ id := "hd-001", type := .heading, file := ["blocks", "a"] },
         { id := "hd-002", type := .heading, file := ["blocks", "b"] },
         { id := "hd-004", type := .heading, file := ["blocks", "d"] }])
    ∧ (insertBlockAtPosition
        [{ id := "hd-001", type := .heading, file := ["blocks", "a"] }]
        { id := "hd-004", type := .heading, file := ["blocks", "d"] }
        { type := .positionAfter, blockID := "zz" }
      = [{ id := "hd-001", type := .heading, file := ["blocks", "a"] },
         { id := "hd-004", type := .heading, file := ["blocks", "d"] }]) :=
  ⟨(c5_insertBlockAtPosition.2.2.1
      [{ id := "hd-001", type := .heading, file := ["blocks", "a"] }] []
      { id := "hd-002", type := .heading, file := ["blocks", "b"] }
      { id := "hd-004", type := .heading, file := ["blocks", "d"] }
      "hd-002" (by decide) (by decide)).1,
   c5_insertBlockAtPosition.2.2.2
      [{ id := "hd-001", type := .heading, file := ["blocks", "a"] }]
      { id := "hd-004", type := .heading, file := ["blocks", "d"] }
      "zz" (by decide)⟩

/-! ## C9: position string parsing -/

theorem string_ne_empty_data {s : String} (h : s ≠ "") : s.data ≠ [] := by
  intro hd
  apply h
  cases s with
  | mk data => cases hd; rfl

/-- C9: position parsing is total and never errors: `""` and `"end"` parse
to End, `"start"` to Start, `"after:<id>"` with non-empty `<id>` to
After(id), and every other string defaults to End. -/
theorem c9_parsePosition :
    ParsePosition "" = { type := .positionEnd, blockID := "" }
    ∧ ParsePosition "end" = { type := .positionEnd, blockID := "" }
    ∧ ParsePosition "start" = { type := .positionStart, blockID := "" }
    ∧ (∀ (id : String), id ≠ "" →
        ParsePosition ("after:" ++ id) = { type := .positionAfter, blockID := id })
    ∧ (∀ (s : String), s ≠ "" → s ≠ "end" → s ≠ "start" →
        (∀ (id : String), id ≠ "" → s ≠ "after:" ++ id) →
        ParsePosition s = { type := .positionEnd, blockID := "" }) := by
  refine ⟨by decide, by decide, by decide, fun id hid => ?_, fun s h1 h2 h3 h4 => ?_⟩
  · have hdata : ("after:" ++ id).data = "after:".data ++ id.data := rfl
    have hne : id.data ≠ [] := string_ne_empty_data hid
    have hlen : 0 < id.data.length := List.length_pos.mpr hne
    have h6 : ("after:".data).length = 6 := rfl
    have hlen2 : ("after:" ++ id).data.length = 6 + id.data.length := by
      rw [hdata, List.length_append, h6]
    have hA : ¬("after:" ++ id = "" ∨ "after:" ++ id = "end") := by
      intro hor
      rcases hor with h | h
      · rw [h] at hlen2
        have h0 : ("" : String).data.length = 0 := rfl
        rw [h0] at hlen2
        omega
      · rw [h] at hlen2
        have h3l : ("end").data.length = 3 := rfl
        rw [h3l] at hlen2
        omega
    have hB : ¬("after:" ++ id = "start") := by
      intro h
      rw [h] at hlen2
      have h5 : ("start").data.length = 5 := rfl
      rw [h5] at hlen2
      omega
    have hC : 6 < ("after:" ++ id).data.length
        ∧ ("after:" ++ id).data.take 6 = "after:".data := by
      refine ⟨by omega, ?_⟩
      rw [hdata, ← h6, List.take_left]
    have hdrop : ("after:" ++ id).data.drop 6 = id.data := by
      rw [hdata, ← h6, List.drop_left]
    unfold ParsePosition
    rw [if_neg hA, if_neg hB, if_pos hC, hdrop]
  · have hA : ¬(s = "" ∨ s = "end") := fun hor => hor.elim h1 h2
    have hC : ¬(6 < s.data.length ∧ s.data.take 6 = "after:".data) := by
      rintro ⟨hgt, htake⟩
      have hsplit : s.data = "after:".data ++ s.data.drop 6 := by
        conv_lhs => rw [← List.take_append_drop 6 s.data]
        rw [htake]
      have hs : s = "after:" ++ String.mk (s.data.drop 6) := by
        cases s with
        | mk data => exact congrArg String.mk hsplit
      have hrest : String.mk (s.data.drop 6) ≠ "" := by
        intro hempty
        have hdrop : s.data.drop 6 = [] := congrArg String.data hempty
        have hlen3 : s.data.length - 6 = 0 := by
          have h := congrArg List.length hdrop
          rw [List.length_drop] at h
          exact h
        omega
      exact h4 (String.mk (s.data.drop 6)) hrest hs
    unfold ParsePosition
    rw [if_neg hA, if_neg h3, if_neg hC]

/-- Witness for `c9_parsePosition`: the After and default branches at
concrete inputs. -/
theorem c9_parsePosition_witness :
    ParsePosition "after:intro" = { type := .positionAfter, blockID := "intro" }
    ∧ ParsePosition "after!" = { type := .positionEnd, blockID := "" } :=
  ⟨c9_parsePosition.2.2.2.1 "intro" (by decide),
   c9_parsePosition.2.2.2.2 "after!" (by decide) (by decide) (by decide)
     (fun id hid h => by
       have hlen := congrArg (fun t => t.data.length) h
       have hdata : ("after:" ++ id).data = "after:".data ++ id.data := rfl
       simp only [hdata, List.length_append] at hlen
       have e1 : ("after!").data.length = 6 := rfl
       have e2 : ("after:").data.length = 6 := rfl
       rw [e1, e2] at hlen
       have h0 : id.data.length = 0 := by omega
       exact string_ne_empty_data hid (List.length_eq_zero.mp h0))⟩

/-! ## C6: block update -/

theorem fsGet_fsSet_self (fs : List (Path × FSEntry)) (p : Path) (v : FSEntry) :
    fsGet (fsSet fs p v) p = some v := by
  simp [fsGet, fsSet, List.find?]

theorem find?_filter_ne {p q : Path} (hne : q ≠ p) :
    ∀ (fs : List (Path × FSEntry)),
      List.find? (fun e => decide (e.1 = q)) (fs.filter (fun e => !decide (e.1 = p)))
        = List.find? (fun e => decide (e.1 = q)) fs := by
  intro fs
  induction fs with
  | nil => rfl
  | cons a rest ih =>
    by_cases hp : a.1 = p
    · have h1 : ¬(a.1 = q) := fun h => hne (h.symm.trans hp)
      simp [List.filter_cons, List.find?_cons, hp, h1, ih, Ne.symm hne]
    · by_cases h2 : a.1 = q
      · simp [List.filter_cons, List.find?_cons, hp, h2, hne]
      · simp [List.filter_cons, List.find?_cons, hp, h2, ih]

theorem fsGet_fsSet_ne (fs : List (Path × FSEntry)) (p q : Path) (v : FSEntry)
    (hne : q ≠ p) : fsGet (fsSet fs p v) q = fsGet fs q := by
  unfold fsGet fsSet
  rw [List.find?_cons]
  have hd : decide ((p, v).1 = q) = false := by
    simp only [decide_eq_false_iff_not]
    exact fun h => hne h.symm
  rw [hd, find?_filter_ne hne fs]

theorem setID_getID (b : Block) (id : String) : (b.setID id).getID = id := by
  cases b <;> rfl

/-- C6: for a stored block located by the update scan, `UpdateBlock` fails
with TypeMismatch exactly when the replacement's type differs from the
stored reference's type; when the types match it succeeds, writes the
replacement (carrying the existing ID) to the block's content path, leaves
the manifest untouched, and changes no other file. -/
theorem c6_updateBlock :
    ∀ (st : Store) (blockID : String) (newBlock : Block) (chapterID : String)
      (blockRef : BlockReference),
      locateBlockRef st blockID = some (chapterID, blockRef) →
      (blockRef.type ≠ newBlock.getType →
        UpdateBlock st blockID newBlock
          = .error (.typeMismatch blockRef.type newBlock.getType))
      ∧ (blockRef.type = newBlock.getType →
          UpdateBlock st blockID newBlock
            = .ok (updStore st (saveBlockRelPath chapterID (newBlock.setID blockID))
                (blockFileEntry (newBlock.setID blockID)))
          ∧ (newBlock.setID blockID).getID = blockID
          ∧ (∀ st2, UpdateBlock st blockID newBlock = .ok st2 →
              st2.doc = st.doc
              ∧ fsGet st2.fs (saveBlockRelPath chapterID (newBlock.setID blockID))
                  = some (blockFileEntry (newBlock.setID blockID))
              ∧ ∀ p, p ≠ saveBlockRelPath chapterID (newBlock.setID blockID) →
                  fsGet st2.fs p = fsGet st.fs p)) := by
  intro st blockID newBlock chapterID blockRef hloc
  have hupd : UpdateBlock st blockID newBlock
      = if blockRef.type ≠ newBlock.getType then
          .error (.typeMismatch blockRef.type newBlock.getType)
        else .ok (saveBlockFile st chapterID (newBlock.setID blockID)).2 := by
    unfold UpdateBlock
    rw [hloc]
  constructor
  · intro hne
    rw [hupd, if_pos hne]
  · intro heq
    have hok : UpdateBlock st blockID newBlock
        = .ok (updStore st (saveBlockRelPath chapterID (newBlock.setID blockID))
            (blockFileEntry (newBlock.setID blockID))) := by
      rw [hupd, if_neg (fun h => h heq)]
      rfl
    refine ⟨hok, setID_getID newBlock blockID, fun st2 hst2 => ?_⟩
    rw [hok] at hst2
    injection hst2 with hst2
    subst hst2
    exact ⟨rfl, fsGet_fsSet_self _ _ _, fun p hp => fsGet_fsSet_ne _ _ _ _ hp⟩

/-- Witness for `c6_updateBlock`: on the concrete store, updating `hd-001`
with a markdown block fails with TypeMismatch, while updating it with a
heading block succeeds and overwrites only the content file. -/
theorem c6_updateBlock_witness :
    UpdateBlock c6Store "hd-001" (Block.markdown "" "x")
      = .error (.typeMismatch BlockType.heading BlockType.markdown)
    ∧ UpdateBlock c6Store "hd-001" (Block.heading "" 2 "B")
      = .ok (updStore c6Store (saveBlockRelPath "" ((Block.heading "" 2 "B").setID "hd-001"))
          (blockFileEntry ((Block.heading "" 2 "B").setID "hd-001"))) :=
  ⟨(c6_updateBlock c6Store "hd-001" (Block.markdown "" "x") ""
      { id := "hd-001", type := .heading, file := ["blocks", "hd-001-heading.yaml"] }
      (by decide)).1 (by decide),
   ((c6_updateBlock c6Store "hd-001" (Block.heading "" 2 "B") ""
      { id := "hd-001", type := .heading, file := ["blocks", "hd-001-heading.yaml"] }
      (by decide)).2 (by decide)).1⟩

/-! ## C7: moving a block only permutes its scope -/

theorem chaptersClear_of_bool {st : Store} {bid : String}
    (h : chaptersClearOf st bid = true) :
    ∀ ch ∈ st.doc.chapters, ∀ c, GetChapter st ch.id = .ok c →
      ∀ r ∈ c.blocks, r.id ≠ bid := by
  intro ch hch c hc r hr
  unfold chaptersClearOf at h
  rw [List.all_eq_true] at h
  have h2 := h ch hch
  rw [hc] at h2
  simp only [List.all_eq_true, decide_eq_true_eq] at h2
  exact h2 r hr

theorem findFirstBlock_none {bid : String} :
    ∀ {l : List BlockReference}, (∀ r ∈ l, r.id ≠ bid) → findFirstBlock bid l = none := by
  intro l
  induction l with
  | nil => intro _; rfl
  | cons a rest ih =>
    intro hnone
    unfold findFirstBlock
    rw [if_neg (hnone a (List.mem_cons_self a rest))]
    exact ih (fun r hr => hnone r (List.mem_cons_of_mem a hr))

theorem findBlockIdx_none {bid : String} :
    ∀ {l : List BlockReference}, (∀ r ∈ l, r.id ≠ bid) → findBlockIdx bid l = none := by
  intro l
  induction l with
  | nil => intro _; rfl
  | cons a rest ih =>
    intro hnone
    unfold findBlockIdx
    rw [if_neg (hnone a (List.mem_cons_self a rest)),
      ih (fun r hr => hnone r (List.mem_cons_of_mem a hr))]
    rfl

theorem removeFirstBlock_none {bid : String} :
    ∀ {l : List BlockReference}, (∀ r ∈ l, r.id ≠ bid) → removeFirstBlock bid l = none := by
  intro l
  induction l with
  | nil => intro _; rfl
  | cons a rest ih =>
    intro hnone
    unfold removeFirstBlock
    rw [if_neg (hnone a (List.mem_cons_self a rest)),
      ih (fun r hr => hnone r (List.mem_cons_of_mem a hr))]

theorem locateInChapters_none (st : Store) (bid : String) :
    ∀ (chs : List ChapterReference),
      (∀ ch ∈ chs, ∀ c, GetChapter st ch.id = .ok c → ∀ r ∈ c.blocks, r.id ≠ bid) →
      locateInChapters st bid chs = none := by
  intro chs
  induction chs with
  | nil => intro _; rfl
  | cons chRef rest ih =>
    intro hclear
    unfold locateInChapters
    split
    · exact ih (fun ch hch => hclear ch (List.mem_cons_of_mem chRef hch))
    · rename_i chapter hget
      rw [findFirstBlock_none (hclear chRef (List.mem_cons_self chRef rest) chapter hget)]
      exact ih (fun ch hch => hclear ch (List.mem_cons_of_mem chRef hch))

theorem findLocInChapters_none (st : Store) (bid : String) :
    ∀ (chs : List ChapterReference),
      (∀ ch ∈ chs, ∀ c, GetChapter st ch.id = .ok c → ∀ r ∈ c.blocks, r.id ≠ bid) →
      findLocInChapters st bid chs = none := by
  intro chs
  induction chs with
  | nil => intro _; rfl
  | cons chRef rest ih =>
    intro hclear
    unfold findLocInChapters
    split
    · exact ih (fun ch hch => hclear ch (List.mem_cons_of_mem chRef hch))
    · rename_i chapter hget
      rw [findBlockIdx_none (hclear chRef (List.mem_cons_self chRef rest) chapter hget)]
      exact ih (fun ch hch => hclear ch (List.mem_cons_of_mem chRef hch))

theorem deleteBlockInChapters_err (st : Store) (bid : String) :
    ∀ (chs : List ChapterReference),
      (∀ ch ∈ chs, ∀ c, GetChapter st ch.id = .ok c → ∀ r ∈ c.blocks, r.id ≠ bid) →
      deleteBlockInChapters st bid chs = .error (.blockNotFound bid) := by
  intro chs
  induction chs with
  | nil => intro _; rfl
  | cons chRef rest ih =>
    intro hclear
    unfold deleteBlockInChapters
    split
    · exact ih (fun ch hch => hclear ch (List.mem_cons_of_mem chRef hch))
    · rename_i chapter hget
      rw [removeFirstBlock_none (hclear chRef (List.mem_cons_self chRef rest) chapter hget)]
      exact ih (fun ch hch => hclear ch (List.mem_cons_of_mem chRef hch))

theorem moveBlockInChapters_err (st : Store) (bid : String) (pos : Position) :
    ∀ (chs : List ChapterReference),
      (∀ ch ∈ chs, ∀ c, GetChapter st ch.id = .ok c → ∀ r ∈ c.blocks, r.id ≠ bid) →
      moveBlockInChapters st bid pos chs = .error (.blockNotFound bid) := by
  intro chs
  induction chs with
  | nil => intro _; rfl
  | cons chRef rest ih =>
    intro hclear
    unfold moveBlockInChapters
    split
    · exact ih (fun ch hch => hclear ch (List.mem_cons_of_mem chRef hch))
    · rename_i chapter hget
      rw [removeFirstBlock_none (hclear chRef (List.mem_cons_self chRef rest) chapter hget)]
      exact ih (fun ch hch => hclear ch (List.mem_cons_of_mem chRef hch))

/-- C10: in a document whose `has_chapters` flag is true, the block lookup
and the mutations built on it scan only the chapter lists; in the mixed
state where the document also carries top-level blocks, they all return
NotFound for the ID of a top-level block that appears in no chapter. -/
theorem c10_lookupIgnoresFlat :
    ∀ (st : Store) (blockID : String) (newBlock : Block) (pos : Position),
      st.doc.hasChapters = true →
      chaptersClearOf st blockID = true →
      (∃ r ∈ st.doc.blocks, r.id = blockID) →
      FindBlockLocation st blockID = .error (.blockNotFound blockID)
      ∧ UpdateBlock st blockID newBlock = .error (.blockNotFound blockID)
      ∧ DeleteBlock st blockID = .error (.blockNotFound blockID)
      ∧ MoveBlock st blockID pos = .error (.blockNotFound blockID) := by
  intro st blockID newBlock pos hhc hclearB _hflat
  have hc := chaptersClear_of_bool hclearB
  refine ⟨?_, ?_, ?_, ?_⟩
  · unfold FindBlockLocation
    rw [hhc, if_pos rfl, findLocInChapters_none st blockID st.doc.chapters hc]
  · unfold UpdateBlock locateBlockRef
    rw [hhc, if_pos rfl, locateInChapters_none st blockID st.doc.chapters hc]
  · unfold DeleteBlock
    rw [hhc, if_pos rfl]
    exact deleteBlockInChapters_err st blockID st.doc.chapters hc
  · unfold MoveBlock
    rw [hhc, if_pos rfl]
    exact moveBlockInChapters_err st blockID pos st.doc.chapters hc

/-- Witness for `c10_lookupIgnoresFlat`: the concrete mixed store holding
the top-level block `hd-001` and one chapter without it. -/
theorem c10_lookupIgnoresFlat_witness :
    FindBlockLocation c10Store "hd-001" = .error (.blockNotFound "hd-001")
    ∧ UpdateBlock c10Store "hd-001" (Block.heading "" 1 "X")
        = .error (.blockNotFound "hd-001")
    ∧ DeleteBlock c10Store "hd-001" = .error (.blockNotFound "hd-001")
    ∧ MoveBlock c10Store "hd-001" posStart = .error (.blockNotFound "hd-001") :=
  c10_lookupIgnoresFlat c10Store "hd-001" (Block.heading "" 1 "X") posStart
    (by decide) (by decide) (by decide)

/-! ## C8: search matching -/

theorem searchAux_mem_iff (load : BlockReference → Option Block) (q cid : String) :
    ∀ (refs : List BlockReference) (i0 n : Nat),
      (∃ r ∈ searchInBlocksAux load q cid refs i0, r.position = n)
      ↔ ∃ j ref, refs[j]? = some ref ∧ n = i0 + j
          ∧ ∃ b, load ref = some b
              ∧ containsSub (toLowerL (getBlockContent b).data) q.data = true := by
  intro refs
  induction refs with
  | nil =>
    intro i0 n
    constructor
    · rintro ⟨r, hr, _⟩
      exact absurd hr (List.not_mem_nil r)
    · rintro ⟨j, ref, hj, _⟩
      simp at hj
  | cons a rest ih =>
    intro i0 n
    unfold searchInBlocksAux
    split
    · rename_i hload
      constructor
      · intro hmem
        obtain ⟨j, ref, hj, hn, hb⟩ := (ih (i0 + 1) n).mp hmem
        exact ⟨j + 1, ref, by simpa using hj, by omega, hb⟩
      · rintro ⟨j, ref, hj, hn, b, hb, hm⟩
        cases j with
        | zero =>
          simp at hj
          rw [← hj] at hb
          rw [hload] at hb
          exact absurd hb (by simp)
        | succ j' =>
          simp only [List.getElem?_cons_succ] at hj
          exact (ih (i0 + 1) n).mpr ⟨j', ref, hj, by omega, b, hb, hm⟩
    · rename_i b0 hload
      by_cases hm0 : containsSub (toLowerL (getBlockContent b0).data) q.data = true
      · rw [if_pos hm0]
        constructor
        · rintro ⟨r, hr, hpos⟩
          rcases List.mem_cons.mp hr with h | h
          · subst h
            have hip : i0 = n := hpos
            exact ⟨0, a, by simp, by omega, b0, hload, hm0⟩
          · obtain ⟨j, ref, hj, hn, hb⟩ := (ih (i0 + 1) n).mp ⟨r, h, hpos⟩
            exact ⟨j + 1, ref, by simpa using hj, by omega, hb⟩
        · rintro ⟨j, ref, hj, hn, b, hb, hm⟩
          cases j with
          | zero =>
            refine ⟨_, List.mem_cons_self _ _, ?_⟩
            show i0 = n
            omega
          | succ j' =>
            simp only [List.getElem?_cons_succ] at hj
            obtain ⟨r, hr, hpos⟩ := (ih (i0 + 1) n).mpr ⟨j', ref, hj, by omega, b, hb, hm⟩
            exact ⟨r, List.mem_cons_of_mem _ hr, hpos⟩
      · rw [if_neg hm0]
        constructor
        · intro hmem
          obtain ⟨j, ref, hj, hn, hb⟩ := (ih (i0 + 1) n).mp hmem
          exact ⟨j + 1, ref, by simpa using hj, by omega, hb⟩
        · rintro ⟨j, ref, hj, hn, b, hb, hm⟩
          cases j with
          | zero =>
            simp at hj
            rw [← hj] at hb
            rw [hload] at hb
            injection hb with hb
            subst hb
            exact absurd hm hm0
          | succ j' =>
            simp only [List.getElem?_cons_succ] at hj
            exact (ih (i0 + 1) n).mpr ⟨j', ref, hj, by omega, b, hb, hm⟩

theorem searchAux_shape (load : BlockReference → Option Block) (q cid : String) :
    ∀ (refs : List BlockReference) (i0 : Nat) (r : SearchResult),
      r ∈ searchInBlocksAux load q cid refs i0 →
      ∃ j ref b, refs[j]? = some ref ∧ r.position = i0 + j
        ∧ r.blockID = ref.id ∧ r.blockType = ref.type ∧ r.chapterID = cid
        ∧ load ref = some b
        ∧ r.snippet = extractSnippet (getBlockContent b) q := by
  intro refs
  induction refs with
  | nil =>
    intro i0 r hr
    exact absurd hr (List.not_mem_nil r)
  | cons a rest ih =>
    intro i0 r hr
    unfold searchInBlocksAux at hr
    split at hr
    · obtain ⟨j, ref, b, hj, hpos, hrest⟩ := ih (i0 + 1) r hr
      exact ⟨j + 1, ref, b, by simpa using hj, by omega, hrest⟩
    · rename_i b0 hload
      split at hr
      · rcases List.mem_cons.mp hr with h | h
        · subst h
          exact ⟨0, a, b0, by simp, by show i0 = i0 + 0; omega, rfl, rfl, rfl, hload, rfl⟩
        · obtain ⟨j, ref, b, hj, hpos, hrest⟩ := ih (i0 + 1) r h
          exact ⟨j + 1, ref, b, by simpa using hj, by omega, hrest⟩
      · obtain ⟨j, ref, b, hj, hpos, hrest⟩ := ih (i0 + 1) r hr
        exact ⟨j + 1, ref, b, by simpa using hj, by omega, hrest⟩

/-- C8: search reports a block as a match exactly when the (lowercased)
query is a substring of the lowercased extracted text, where the extracted
text is: heading text; markdown content; image caption ++ " " ++ alt text;
table headers joined with spaces followed by every row's cells joined with
spaces; and the empty string for a page break — which therefore never
matches a non-empty query.  Each result carries the matched reference's ID
and type, the scanned chapter ID, the snippet, and the block's index as its
position. -/
theorem c8_search :
    (∀ (id : String) (level : Nat) (text : String),
      getBlockContent (Block.heading id level text) = text)
    ∧ (∀ (id content : String), getBlockContent (Block.markdown id content) = content)
    ∧ (∀ (id path caption altText : String),
      getBlockContent (Block.image id path caption altText) = caption ++ " " ++ altText)
    ∧ (∀ (id : String) (headers : List String) (rows : List (List String)),
      getBlockContent (Block.table id headers rows)
        = rows.foldl (fun content row => content ++ " " ++ String.intercalate " " row)
            (String.intercalate " " headers))
    ∧ (∀ (id : String), getBlockContent (Block.pageBreak id) = "")
    ∧ (∀ (load : BlockReference → Option Block) (refs : List BlockReference)
        (query chapterID : String) (n : Nat),
        (∃ r ∈ searchInBlocks load refs (strToLower query) chapterID, r.position = n)
        ↔ ∃ ref, refs[n]? = some ref
            ∧ ∃ b, load ref = some b
                ∧ containsSub (toLowerL (getBlockContent b).data)
                    (strToLower query).data = true)
    ∧ (∀ (load : BlockReference → Option Block) (refs : List BlockReference)
        (query chapterID : String) (r : SearchResult),
        r ∈ searchInBlocks load refs query chapterID →
        ∃ ref b, refs[r.position]? = some ref ∧ r.blockID = ref.id
          ∧ r.blockType = ref.type ∧ r.chapterID = chapterID
          ∧ load ref = some b
          ∧ r.snippet = extractSnippet (getBlockContent b) query)
    ∧ (∀ (id query : String), query ≠ "" →
        containsSub (toLowerL (getBlockContent (Block.pageBreak id)).data)
          (toLowerL query.data) = false) := by
  refine ⟨fun _ _ _ => rfl, fun _ _ => rfl, fun _ _ _ _ => rfl, fun _ _ _ => rfl,
    fun _ => rfl, fun load refs query chapterID n => ?_,
    fun load refs query chapterID r hr => ?_, fun id query hq => ?_⟩
  · constructor
    · intro hmem
      obtain ⟨j, ref, hj, hn, hb⟩ :=
        (searchAux_mem_iff load (strToLower query) chapterID refs 0 n).mp hmem
      have hjn : j = n := by omega
      subst hjn
      exact ⟨ref, hj, hb⟩
    · rintro ⟨ref, hn, b, hb, hm⟩
      exact (searchAux_mem_iff load (strToLower query) chapterID refs 0 n).mpr
        ⟨n, ref, hn, by omega, b, hb, hm⟩
  · obtain ⟨j, ref, b, hj, hpos, hid, htype, hch, hb, hsnip⟩ :=
      searchAux_shape load query chapterID refs 0 r hr
    have hjr : r.position = j := by omega
    rw [hjr]
    exact ⟨ref, b, hj, hid, htype, hch, hb, hsnip⟩
  · have hne : query.data ≠ [] := string_ne_empty_data hq
    show (toLowerL query.data).isEmpty = false
    cases hd : query.data with
    | nil => exact absurd hd hne
    | cons c cs => rfl

/-- Witness for `c8_search`: the page-break and per-result conjuncts at
concrete inputs. -/
theorem c8_search_witness :
    containsSub (toLowerL (getBlockContent (Block.pageBreak "pb-001")).data)
      (toLowerL "butterflies".data) = false
    ∧ (∃ ref b, c8refs[c8result.position]? = some ref ∧ c8result.blockID = ref.id
        ∧ c8result.blockType = ref.type ∧ c8result.chapterID = ""
        ∧ c8load ref = some b
        ∧ c8result.snippet = extractSnippet (getBlockContent b) "butterflies") :=
  ⟨c8_search.2.2.2.2.2.2.2 "pb-001" "butterflies" (by decide),
   c8_search.2.2.2.2.2.2.1 c8load c8refs "butterflies" "" c8result (by decide)⟩

end Docgen
